import Mathlib

/-!
Verification development for the WEBAI frontend streaming-response
ingestion engine (frontend/src/main.js, the `sendMessage` / `switchConversation`
methods of the Chat component).

The embedding below translates, from the source:
  * the chunk decoding step (`chunk.split('\n\n')`, the `data: ` filter and
    `line.slice(6)`),
  * the frame parsing step (`JSON.parse` on a payload, modelled by a small
    executable JSON parser),
  * the streaming and non-streaming event loops (the two `switch (data.type)`
    blocks), including the exception control flow of the surrounding
    `try`/`catch`/`finally`,
  * the component-level `sendMessage` entry (its guard, the user-message and
    placeholder pushes, and the error-message push in `catch`),
  * `switchConversation` (its mutation of the component state).

Machine limits: JavaScript strings are modelled by Lean `String`; timestamps
(`new Date().toLocaleString()`) by an abstract `Nat` clock passed in.
-/

set_option linter.unusedVariables false

namespace WebAI

/-- JSON values as produced by `JSON.parse` on a frame payload.  Numbers keep
their source lexeme: no claim about this program depends on numeric value. -/
inductive Json where
  | null
  | bool (b : Bool)
  | num (lexeme : String)
  | str (s : String)
  | arr (elems : List Json)
  | obj (fields : List (String × Json))
deriving Repr

/-- Whitespace characters allowed between JSON tokens. -/
def jsonWs (c : Char) : Bool :=
  c = ' ' || c = '\t' || c = '\n' || c = '\r'

/-- Skip leading JSON whitespace. -/
def skipWs : List Char → List Char
  | [] => []
  | c :: cs => if jsonWs c then skipWs cs else c :: cs

/-- Value of a hexadecimal digit, if the character is one. -/
def hexVal (c : Char) : Option Nat :=
  if '0' ≤ c ∧ c ≤ '9' then some (c.toNat - '0'.toNat)
  else if 'a' ≤ c ∧ c ≤ 'f' then some (c.toNat - 'a'.toNat + 10)
  else if 'A' ≤ c ∧ c ≤ 'F' then some (c.toNat - 'A'.toNat + 10)
  else none

/-- Parse the body of a JSON string after the opening quote, returning the
decoded characters and the remainder after the closing quote.  Escapes follow
the JSON grammar; a raw control character or an invalid escape is an error,
as in `JSON.parse`.  The fuel argument bounds recursion; each step consumes at
least one input character, so callers pass `length + 1`. -/
def parseStringBody : Nat → List Char → Option (List Char × List Char)
  | 0, _ => none
  | _ + 1, [] => none
  | fuel + 1, c :: cs =>
    if c = '"' then some ([], cs)
    else if c = '\\' then
      match cs with
      | [] => none
      | e :: cs' =>
        let esc : Option (Char × List Char) :=
          if e = '"' then some ('"', cs')
          else if e = '\\' then some ('\\', cs')
          else if e = '/' then some ('/', cs')
          else if e = 'b' then some ('\x08', cs')
          else if e = 'f' then some ('\x0c', cs')
          else if e = 'n' then some ('\n', cs')
          else if e = 'r' then some ('\r', cs')
          else if e = 't' then some ('\t', cs')
          else if e = 'u' then
            match cs' with
            | h1 :: h2 :: h3 :: h4 :: rest =>
              match hexVal h1, hexVal h2, hexVal h3, hexVal h4 with
              | some a, some b, some c2, some d =>
                some (Char.ofNat (((a * 16 + b) * 16 + c2) * 16 + d), rest)
              | _, _, _, _ => none
            | _ => none
          else none
        match esc with
        | none => none
        | some (ch, rest) =>
          match parseStringBody fuel rest with
          | none => none
          | some (body, rem) => some (ch :: body, rem)
    else if c.toNat < 0x20 then none
    else
      match parseStringBody fuel cs with
      | none => none
      | some (body, rem) => some (c :: body, rem)

/-- Longest prefix of decimal digits, with the remainder. -/
def takeDigits : List Char → (List Char × List Char)
  | [] => ([], [])
  | c :: cs =>
    if c.isDigit then
      let (d, r) := takeDigits cs
      (c :: d, r)
    else ([], c :: cs)

/-- Integer part of a JSON number: `0`, or a nonzero digit followed by digits. -/
def parseIntPart : List Char → Option (List Char × List Char)
  | [] => none
  | c :: cs =>
    if c = '0' then some ([c], cs)
    else if c.isDigit then
      let (d, r) := takeDigits cs
      some (c :: d, r)
    else none

/-- Optional fractional part of a JSON number. -/
def parseFracPart : List Char → Option (List Char × List Char)
  | '.' :: cs =>
    match takeDigits cs with
    | ([], _) => none
    | (d, r) => some ('.' :: d, r)
  | cs => some ([], cs)

/-- Optional exponent part of a JSON number. -/
def parseExpPart : List Char → Option (List Char × List Char)
  | [] => some ([], [])
  | c :: cs =>
    if c = 'e' ∨ c = 'E' then
      match cs with
      | [] => none
      | s :: cs' =>
        if s = '+' ∨ s = '-' then
          match takeDigits cs' with
          | ([], _) => none
          | (d, r) => some (c :: s :: d, r)
        else
          match takeDigits cs with
          | ([], _) => none
          | (d, r) => some (c :: d, r)
    else some ([], c :: cs)

/-- Lexeme of a JSON number (sign, integer, fraction, exponent). -/
def parseNumberLex (cs : List Char) : Option (List Char × List Char) :=
  let signAndRest : List Char × List Char :=
    match cs with
    | '-' :: r => (['-'], r)
    | _ => ([], cs)
  match parseIntPart signAndRest.2 with
  | none => none
  | some (ip, cs2) =>
    match parseFracPart cs2 with
    | none => none
    | some (fp, cs3) =>
      match parseExpPart cs3 with
      | none => none
      | some (ep, cs4) => some (signAndRest.1 ++ ip ++ fp ++ ep, cs4)

/-- Match a literal character sequence, returning the remainder. -/
def stripLit : List Char → List Char → Option (List Char)
  | [], cs => some cs
  | _ :: _, [] => none
  | p :: ps, c :: cs => if c = p then stripLit ps cs else none

mutual

/-- Parse one JSON value (after skipping leading whitespace).  The fuel bounds
the recursion; a fuel of twice the input length always suffices, and running
out of fuel is reported as a parse failure — faithful to `JSON.parse`, where
over-deep input likewise throws, reaching the same `catch`. -/
def parseValue : Nat → List Char → Option (Json × List Char)
  | 0, _ => none
  | fuel + 1, cs0 =>
    match skipWs cs0 with
    | [] => none
    | c :: cs =>
      if c = '"' then
        match parseStringBody (cs.length + 1) cs with
        | none => none
        | some (body, rest) => some (.str (String.mk body), rest)
      else if c = '{' then
        match skipWs cs with
        | '}' :: rest => some (.obj [], rest)
        | cs1 =>
          match parseMembers fuel cs1 with
          | none => none
          | some (fs, rest) => some (.obj fs, rest)
      else if c = '[' then
        match skipWs cs with
        | ']' :: rest => some (.arr [], rest)
        | cs1 =>
          match parseItems fuel cs1 with
          | none => none
          | some (vs, rest) => some (.arr vs, rest)
      else if c = 't' then (stripLit ['r', 'u', 'e'] cs).map (fun r => (.bool true, r))
      else if c = 'f' then (stripLit ['a', 'l', 's', 'e'] cs).map (fun r => (.bool false, r))
      else if c = 'n' then (stripLit ['u', 'l', 'l'] cs).map (fun r => (.null, r))
      else if c = '-' ∨ c.isDigit then
        match parseNumberLex (c :: cs) with
        | none => none
        | some (lex, rest) => some (.num (String.mk lex), rest)
      else none

/-- Parse one or more `"key": value` members of a JSON object, up to and
including the closing brace. -/
def parseMembers : Nat → List Char → Option (List (String × Json) × List Char)
  | 0, _ => none
  | fuel + 1, cs =>
    match cs with
    | '"' :: cs1 =>
      match parseStringBody (cs1.length + 1) cs1 with
      | none => none
      | some (key, cs2) =>
        match skipWs cs2 with
        | ':' :: cs3 =>
          match parseValue fuel cs3 with
          | none => none
          | some (v, cs4) =>
            match skipWs cs4 with
            | ',' :: cs5 =>
              match parseMembers fuel (skipWs cs5) with
              | none => none
              | some (fs, cs6) => some ((String.mk key, v) :: fs, cs6)
            | '}' :: cs5 => some ([(String.mk key, v)], cs5)
            | _ => none
        | _ => none
    | _ => none

/-- Parse one or more items of a JSON array, up to and including the closing
bracket. -/
def parseItems : Nat → List Char → Option (List Json × List Char)
  | 0, _ => none
  | fuel + 1, cs =>
    match parseValue fuel cs with
    | none => none
    | some (v, cs1) =>
      match skipWs cs1 with
      | ',' :: cs2 =>
        match parseItems fuel cs2 with
        | none => none
        | some (vs, cs3) => some (v :: vs, cs3)
      | ']' :: cs2 => some ([v], cs2)
      | _ => none

end

/-- Model of `JSON.parse`: parse a complete JSON document, requiring only
whitespace after the value.  `none` models the thrown `SyntaxError` (or any
other exception `JSON.parse` can raise). -/
def parseJson (s : String) : Option Json :=
  match parseValue (2 * s.length + 2) s.toList with
  | none => none
  | some (v, rest) => if skipWs rest = [] then some v else none

/-- Last binding of a key in a JSON object's field list: with duplicate keys,
`JSON.parse` keeps the last occurrence. -/
def lookupLastField (fs : List (String × Json)) (k : String) : Option Json :=
  match fs with
  | [] => none
  | (k', v) :: rest =>
    match lookupLastField rest k with
    | some w => some w
    | none => if k' = k then some v else none

/-- Property access `data.field` on a parsed JSON value: a lookup on objects,
`undefined` (here `none`) on everything else. -/
def getField (j : Json) (k : String) : Option Json :=
  match j with
  | .obj fs => lookupLastField fs k
  | _ => none

/-- JavaScript string coercion of a possibly-undefined property, as used by
`fullReasoning += data.content` and template interpolation: `undefined` prints
as `"undefined"`; the array and object cases approximate `String()` and are
unused by the protocol. -/
def jsToString : Option Json → String
  | none => "undefined"
  | some .null => "null"
  | some (.bool true) => "true"
  | some (.bool false) => "false"
  | some (.num l) => l
  | some (.str s) => s
  | some (.arr _) => ""
  | some (.obj _) => "[object Object]"

/-! ## JavaScript string primitives used by `sendMessage`

`String.splitOn`, `String.trim` and `String.startsWith` from the Lean library
do not reduce inside the kernel, so the three string operations the source
uses are modelled directly over the character list. -/

/-- Does the character list start with the given pattern?  Model of
`line.startsWith(pattern)` (both strings are ASCII at every use site, so
UTF-16 units and characters coincide). -/
def charsStart : List Char → List Char → Bool
  | [], _ => true
  | _ :: _, [] => false
  | p :: ps, c :: cs => p = c && charsStart ps cs

/-- Model of `line.startsWith('data: ')`. -/
def jsStartsWithData (line : String) : Bool :=
  charsStart "data: ".data line.data

/-- Split a character list at every occurrence of the two-character separator
`"\n\n"`, leftmost and non-overlapping, exactly as `chunk.split('\n\n')`. -/
def splitNN : List Char → List (List Char)
  | [] => [[]]
  | '\n' :: '\n' :: rest => [] :: splitNN rest
  | c :: rest =>
    match splitNN rest with
    | [] => [[c]]
    | g :: gs => (c :: g) :: gs

/-- Model of `chunk.split('\n\n')`. -/
def jsSplitNN (s : String) : List String :=
  (splitNN s.data).map String.mk

/-- Model of `line.slice(6)` (the prefix in question is ASCII, so UTF-16
units and characters coincide). -/
def jsSlice6 (s : String) : String :=
  String.mk (s.data.drop 6)

/-- Whitespace as trimmed by `String.prototype.trim` (the characters that can
actually occur in a chat input). -/
def jsSpace (c : Char) : Bool :=
  c = ' ' || c = '\t' || c = '\n' || c = '\r' || c = '\x0b' || c = '\x0c' || c = '\xa0'

/-- Model of `this.newMessage.trim()`. -/
def jsTrim (s : String) : String :=
  String.mk (((s.data.dropWhile jsSpace).reverse.dropWhile jsSpace).reverse)

/-! ## Data model

The component's message and conversation records (`data()` in main.js plus the
object literals pushed by `sendMessage`, `switchConversation` and the `catch`
handler).  JavaScript objects carry only the fields each literal mentions; a
missing field reads as `undefined`, which is falsy, so missing boolean fields
are modelled as `false` and a missing `reasoning` as `""`. -/

/-- One chat turn as stored in `this.messages`. -/
structure Message where
  content : String
  reasoning : String
  isUser : Bool
  timestamp : Nat
  isStreaming : Bool
  isAnswering : Bool
  isError : Bool
  showReasoning : Bool
deriving Repr, DecidableEq

/-- One entry of `this.conversations`: `id` and `title` come from the backend;
`messages` is the snapshot attached by the `done` reconciliation (absent until
then). -/
structure Conversation where
  id : Nat
  title : String
  messages : Option Json
deriving Repr

/-- The user message pushed by `sendMessage` before dispatch. -/
def userMessage (content : String) (ts : Nat) : Message :=
  { content := content, reasoning := "", isUser := true, timestamp := ts,
    isStreaming := false, isAnswering := false, isError := false, showReasoning := false }

/-- The empty assistant message pushed by the streaming branch before reading
(`content: '', reasoning: '', isStreaming: true, showReasoning: true`). -/
def placeholderMessage (ts : Nat) : Message :=
  { content := "", reasoning := "", isUser := false, timestamp := ts,
    isStreaming := true, isAnswering := false, isError := false, showReasoning := true }

/-- The synthetic error message pushed by the `catch` handler:
`content: (发送消息失败: ) + error.message, isUser: false, isError: true`. -/
def errorMessage (errText : String) (ts : Nat) : Message :=
  { content := "发送消息失败: " ++ errText, reasoning := "", isUser := false, timestamp := ts,
    isStreaming := false, isAnswering := false, isError := true, showReasoning := false }

/-- The complete assistant message pushed by the non-streaming branch on
`done` (`content: fullResponse, reasoning: fullReasoning, showReasoning: true`). -/
def doneMessage (content reasoning : String) (ts : Nat) : Message :=
  { content := content, reasoning := reasoning, isUser := false, timestamp := ts,
    isStreaming := false, isAnswering := false, isError := false, showReasoning := true }

/-- Exceptions that can escape the read loop into the outer `catch`. -/
inductive JsErr where
  | parseError
  | typeError
  | appError (msg : String)
  | transportError (msg : String)
deriving Repr, DecidableEq

/-- Browser text for a `JSON.parse` syntax error (engine specific; a fixed
representative is used). -/
def parseErrorText : String := "Unexpected token in JSON"

/-- Browser text for the `TypeError` raised by writing a property of
`undefined` (engine specific; a fixed representative is used). -/
def typeErrorText : String := "Cannot set properties of undefined"

/-- The `error.message` interpolated into the synthetic error message. -/
def errText : JsErr → String
  | .parseError => parseErrorText
  | .typeError => typeErrorText
  | .appError m => m
  | .transportError m => m

/-! ## The two read loops of `sendMessage`

The component state the loop bodies read and write (`this.messages`,
`this.conversations`, `this.currentConversationId`) together with the loop
locals (`fullResponse`, `fullReasoning`, `isComplete`) and the clock used for
timestamps.  In the source the loop reads the component fields afresh at each
event; the claims about a conversation switch during a stream are stated by
re-entering the loop with the post-switch state. -/

structure LoopSt where
  messages : List Message
  conversations : List Conversation
  currentConversationId : Option Nat
  fullResponse : String
  fullReasoning : String
  isComplete : Bool
  now : Nat
deriving Repr

/-- Overwrite the last element, the functional rendering of
`this.messages[this.messages.length - 1].field = v`; `none` models the
`TypeError` thrown when the list is empty (`undefined[...]`). -/
def updateLast (ms : List Message) (f : Message → Message) : Option (List Message) :=
  match ms.getLast? with
  | none => none
  | some m => some (ms.dropLast ++ [f m])

/-- The `done` handler's reconciliation of `this.conversations`:
`map (conv => conv.id === currentConversationId ? {...conv, messages: data.messages} : conv)`. -/
def reconcile (convs : List Conversation) (cid : Option Nat) (j : Json) : List Conversation :=
  convs.map fun c => if some c.id = cid then { c with messages := getField j "messages" } else c

/-- One step of the streaming branch's `switch (data.type)` (main.js lines
382–435) on an already-parsed frame.  Returns the state after the step and
the exception, if one was thrown.  State mutated before a throw persists, as
it does in the source. -/
def applyDataS (st : LoopSt) (j : Json) : LoopSt × Option JsErr :=
  match getField j "type" with
  | some (.str "reasoning") =>
    let fr := st.fullReasoning ++ jsToString (getField j "content")
    match updateLast st.messages (fun m => { m with reasoning := fr }) with
    | none => ({ st with fullReasoning := fr }, some .typeError)
    | some ms => ({ st with messages := ms, fullReasoning := fr }, none)
  | some (.str "answer_start") =>
    match updateLast st.messages (fun m => { m with isAnswering := true }) with
    | none => (st, some .typeError)
    | some ms => ({ st with messages := ms }, none)
  | some (.str "answer") =>
    let fr := st.fullResponse ++ jsToString (getField j "content")
    match updateLast st.messages
        (fun m => { m with content := fr,
                           isStreaming := if fr = "" then m.isStreaming else false }) with
    | none => ({ st with fullResponse := fr }, some .typeError)
    | some ms => ({ st with messages := ms, fullResponse := fr }, none)
  | some (.str "done") =>
    ({ st with isComplete := true,
               conversations := reconcile st.conversations st.currentConversationId j }, none)
  | some (.str "error") =>
    (st, some (.appError (jsToString (getField j "error"))))
  | _ => (st, none)

/-- Fold `applyDataS` over a parsed frame sequence, stopping at the first
thrown exception (the `throw e` in the per-line `catch` re-raises out of the
whole loop). -/
def applyDatasS (st : LoopSt) : List Json → LoopSt × Option JsErr
  | [] => (st, none)
  | j :: js =>
    match applyDataS st j with
    | (st', none) => applyDatasS st' js
    | (st', some e) => (st', some e)

/-- One step of the non-streaming branch's `switch (data.type)` (main.js
lines 463–490): deltas only accumulate into the loop locals; `done` pushes
the finished assistant message and reconciles; there is no `answer_start`
case, so that frame falls through silently. -/
def applyDataN (st : LoopSt) (j : Json) : LoopSt × Option JsErr :=
  match getField j "type" with
  | some (.str "reasoning") =>
    ({ st with fullReasoning := st.fullReasoning ++ jsToString (getField j "content") }, none)
  | some (.str "answer") =>
    ({ st with fullResponse := st.fullResponse ++ jsToString (getField j "content") }, none)
  | some (.str "done") =>
    ({ st with isComplete := true,
               messages := st.messages ++ [doneMessage st.fullResponse st.fullReasoning st.now],
               conversations := reconcile st.conversations st.currentConversationId j }, none)
  | some (.str "error") =>
    (st, some (.appError (jsToString (getField j "error"))))
  | _ => (st, none)

/-- Fold `applyDataN` over a parsed frame sequence, stopping at the first
thrown exception. -/
def applyDatasN (st : LoopSt) : List Json → LoopSt × Option JsErr
  | [] => (st, none)
  | j :: js =>
    match applyDataN st j with
    | (st', none) => applyDatasN st' js
    | (st', some e) => (st', some e)

/-- Process one line of a chunk: skip it unless it starts with `data: `,
otherwise `JSON.parse(line.slice(6))` — a parse failure is the thrown
`SyntaxError` — and dispatch on the parsed frame.  `step` is the branch's
switch (`applyDataS` or `applyDataN`). -/
def processLine (step : LoopSt → Json → LoopSt × Option JsErr)
    (st : LoopSt) (line : String) : LoopSt × Option JsErr :=
  if jsStartsWithData line then
    match parseJson (jsSlice6 line) with
    | none => (st, some .parseError)
    | some j => step st j
  else (st, none)

/-- The `for (const line of lines)` loop, stopping at the first exception. -/
def processLines (step : LoopSt → Json → LoopSt × Option JsErr)
    (st : LoopSt) : List String → LoopSt × Option JsErr
  | [] => (st, none)
  | l :: ls =>
    match processLine step st l with
    | (st', none) => processLines step st' ls
    | (st', some e) => (st', some e)

/-- Process one raw chunk: `const lines = chunk.split('\n\n')` then the line
loop.  No buffer is carried between chunks — each chunk is split on its own. -/
def processChunk (step : LoopSt → Json → LoopSt × Option JsErr)
    (st : LoopSt) (chunk : String) : LoopSt × Option JsErr :=
  processLines step st (jsSplitNN chunk)

/-- The `while (true) { await reader.read() ... }` loop over the delivered
chunks, stopping at the first exception. -/
def processChunks (step : LoopSt → Json → LoopSt × Option JsErr)
    (st : LoopSt) : List String → LoopSt × Option JsErr
  | [] => (st, none)
  | c :: cs =>
    match processChunk step st c with
    | (st', none) => processChunks step st' cs
    | (st', some e) => (st', some e)

/-- How the transport ends after the delivered chunks: `eof` is
`reader.read()` resolving with `done: true` (the loop just breaks); `fail`
is the read rejecting (a network failure), which the `await` re-raises into
the outer `catch`. -/
inductive TailEv where
  | eof
  | fail (msg : String)
deriving Repr, DecidableEq

/-- A full run of one branch's read loop: the chunks in order, then the
transport tail. -/
def runLoop (step : LoopSt → Json → LoopSt × Option JsErr)
    (st : LoopSt) (chunks : List String) (tl : TailEv) : LoopSt × Option JsErr :=
  match processChunks step st chunks with
  | (st', some e) => (st', some e)
  | (st', none) =>
    match tl with
    | .eof => (st', none)
    | .fail m => (st', some (.transportError m))

/-! ## The component level: `sendMessage` and `switchConversation` -/

/-- The component fields `sendMessage` and `switchConversation` touch. -/
structure ChatState where
  messages : List Message
  conversations : List Conversation
  currentConversationId : Option Nat
  newMessage : String
  isLoading : Bool
  isStreamingEnabled : Bool
deriving Repr

/-- JavaScript falsiness of `this.currentConversationId`: `null` (no selected
conversation) is falsy, and so would be a numeric id `0`. -/
def jsFalsyId : Option Nat → Bool
  | none => true
  | some n => n = 0

/-- The guard at the top of `sendMessage`:
`!this.newMessage.trim() || this.isLoading || !this.currentConversationId`. -/
def sendGuard (st : ChatState) : Bool :=
  jsTrim st.newMessage = "" || st.isLoading || jsFalsyId st.currentConversationId

/-- The loop state at entry of a branch's read loop. -/
def initLoopSt (msgs : List Message) (st : ChatState) (ts : Nat) : LoopSt :=
  { messages := msgs, conversations := st.conversations,
    currentConversationId := st.currentConversationId,
    fullResponse := "", fullReasoning := "", isComplete := false, now := ts }

/-- The `catch`/`finally` epilogue applied to the loop result: a caught
exception pushes the synthetic error message; `finally` always clears
`isLoading` (and `newMessage` was cleared before the `try`). -/
def finalizeRun (st : ChatState) (res : LoopSt × Option JsErr) (ts : Nat) : ChatState :=
  { st with
    messages :=
      match res.2 with
      | none => res.1.messages
      | some e => res.1.messages ++ [errorMessage (errText e) ts]
    conversations := res.1.conversations
    newMessage := ""
    isLoading := false }

/-- Model of `sendMessage` (main.js lines 314–517).  `ts` is the clock for
the timestamps taken during the call; `chunks`/`tl` are the raw response
stream.  Rendering concerns (`shouldAutoScroll`, scrolling, console logging)
are omitted. -/
def sendMessage (st : ChatState) (ts : Nat) (chunks : List String) (tl : TailEv) : ChatState :=
  if sendGuard st then st
  else
    let msgs1 := st.messages ++ [userMessage st.newMessage ts]
    if st.isStreamingEnabled then
      finalizeRun st
        (runLoop applyDataS (initLoopSt (msgs1 ++ [placeholderMessage ts]) st ts) chunks tl) ts
    else
      finalizeRun st (runLoop applyDataN (initLoopSt msgs1 st ts) chunks tl) ts

/-- One entry of the conversation history returned by
`GET /conversations/:id/history`. -/
structure HistEntry where
  user : String
  ai : String
  reasoning : String
  timestamp : Nat
deriving Repr, DecidableEq

/-- The pair of messages `switchConversation` builds from one history entry. -/
def historyMessages (h : HistEntry) : List Message :=
  [{ content := h.user, reasoning := "", isUser := true, timestamp := h.timestamp,
     isStreaming := false, isAnswering := false, isError := false, showReasoning := false },
   { content := h.ai, reasoning := h.reasoning, isUser := false, timestamp := h.timestamp,
     isStreaming := false, isAnswering := false, isError := false, showReasoning := false }]

/-- Model of `switchConversation` (main.js lines 266–292), success path: set
the current conversation, clear the input, and replace `this.messages` with
the flattened history. -/
def switchConversation (st : ChatState) (cid : Nat) (history : List HistEntry) : ChatState :=
  { st with currentConversationId := some cid,
            newMessage := "",
            messages := history.flatMap historyMessages }

/-! ## Spec-side abstractions

The source has no `phase` field; the spec's `Message.phase` is an abstraction
over the code's observables.  These definitions follow the spec's words (§3,
§4.3) and exist to state the spec-level claims; they are not translations of
source code. -/

/-- The spec's message phases. -/
inductive Phase where
  | notStreaming
  | reasoningPhase
  | answering
  | complete
  | errored
deriving Repr, DecidableEq

/-- Modelled from the spec: the `phase` of the in-progress assistant message,
read off the code's observables — a thrown exception or an error flag means
`errored`; a normally-terminated stream that saw `done` means `complete`;
otherwise the message is still mid-stream, `answering` once answering began. -/
def specPhase (m : Message) (err : Option JsErr) (isComplete : Bool) : Phase :=
  if m.isError ∨ err.isSome then .errored
  else if isComplete then .complete
  else if m.isAnswering then .answering
  else if m.isStreaming then .reasoningPhase
  else .notStreaming

/-- In-order concatenation of a list of delta texts. -/
def strJoin (l : List String) : String :=
  l.foldr (fun a b => a ++ b) ""

/-! ## Frame builders

Parsed forms of the protocol frames (the value `JSON.parse` yields on a
well-formed payload of each type). -/

/-- A `reasoning` delta frame. -/
def mkReasoning (txt : String) : Json :=
  .obj [("type", .str "reasoning"), ("content", .str txt)]

/-- An `answer_start` marker frame. -/
def mkAnswerStart : Json :=
  .obj [("type", .str "answer_start")]

/-- An `answer` delta frame. -/
def mkAnswer (txt : String) : Json :=
  .obj [("type", .str "answer"), ("content", .str txt)]

/-- A `done` frame carrying the persisted-messages snapshot. -/
def mkDone (snapshot : Json) : Json :=
  .obj [("type", .str "done"), ("messages", snapshot)]

/-- An `error` frame carrying the service's error text. -/
def mkError (msg : String) : Json :=
  .obj [("type", .str "error"), ("error", .str msg)]

/-- The event grammar of a well-formed successful stream: reasoning deltas,
an optional `answer_start`, answer deltas, then `done`. -/
def happyFrames (rs : List String) (useStart : Bool) (as : List String) (snapshot : Json) :
    List Json :=
  rs.map mkReasoning ++
    ((if useStart then [mkAnswerStart] else []) ++ (as.map mkAnswer ++ [mkDone snapshot]))

/-- The `isStreaming` flag of the trailing message after a run of answer
deltas: each delta clears it once the accumulated response is non-empty. -/
def ansFlag (b : Bool) (fr : String) : List String → Bool
  | [] => b
  | a :: rest => ansFlag (if fr ++ a = "" then b else false) (fr ++ a) rest

/-- The observables the two `sendMessage` branches share per message: content,
reasoning, role, and the error flag. -/
def obsMessage (m : Message) : String × String × Bool × Bool :=
  (m.content, m.reasoning, m.isUser, m.isError)

/-- The frame payloads the loop extracts from one chunk, read off the loop
body: the split on `"\n\n"`, the `data: ` filter, and `slice(6)`.  This is
the Chunk Decoder stage of the pipeline. -/
def chunkFrames (chunk : String) : List String :=
  ((jsSplitNN chunk).filter fun l => jsStartsWithData l).map jsSlice6

/-- The ordered frame payloads extracted from a whole delivered chunk
sequence; each chunk is decoded on its own, with no buffer in between. -/
def streamFrames (chunks : List String) : List String :=
  chunks.flatMap chunkFrames

/-! ## Concrete fixtures used by witnesses and counterexamples -/

/-- A loop state as it stands right after the streaming branch pushed its
placeholder: one trailing placeholder message, empty accumulators. -/
def demoInit : LoopSt :=
  { messages := [placeholderMessage 0], conversations := [], currentConversationId := some 1,
    fullResponse := "", fullReasoning := "", isComplete := false, now := 0 }

/-- A component state that passes the `sendMessage` guard. -/
def demoChat : ChatState :=
  { messages := [], conversations := [⟨1, "conv 1", none⟩],
    currentConversationId := some 1, newMessage := "hello", isLoading := false,
    isStreamingEnabled := true }

/-- A raw chunk carrying exactly one reasoning frame. -/
def c7chunk : String := "data: \x7b\"type\": \"reasoning\", \"content\": \"x\"\x7d\n\n"

/-- A raw chunk carrying one complete answer frame. -/
def wholeFrameChunk : String := "data: \x7b\"type\": \"answer\", \"content\": \"Hi\"\x7d\n\n"

/-- The first half of `wholeFrameChunk`, split mid-frame. -/
def splitFrontChunk : String := "data: \x7b\"type\": \"an"

/-- The second half of `wholeFrameChunk`, split mid-frame. -/
def splitBackChunk : String := "swer\", \"content\": \"Hi\"\x7d\n\n"

/-- Component state mid-stream on conversation 1: the user message and the
partially filled placeholder are the trailing messages. -/
def preSwitch : ChatState :=
  { messages := [userMessage "hello" 7, { placeholderMessage 7 with reasoning := "r1" }],
    conversations := [⟨1, "conv 1", none⟩, ⟨2, "conv 2", none⟩],
    currentConversationId := some 1, newMessage := "", isLoading := true,
    isStreamingEnabled := true }

/-- The component state after the user switches to conversation 2 while the
stream for conversation 1 is still in flight. -/
def postSwitch : ChatState :=
  switchConversation preSwitch 2 [⟨"hi", "old answer", "old r", 5⟩]

/-- What the still-running read loop of the superseded stream sees after the
switch: it reads `this.messages`, `this.conversations` and
`this.currentConversationId` afresh, while its own locals persist. -/
def staleLoopSt : LoopSt :=
  { messages := postSwitch.messages, conversations := postSwitch.conversations,
    currentConversationId := postSwitch.currentConversationId,
    fullResponse := "", fullReasoning := "r1", isComplete := false, now := 9 }

/-! ## Helper lemmas -/

theorem applyDatasS_append (xs ys : List Json) (st : LoopSt) :
    applyDatasS st (xs ++ ys) =
      match applyDatasS st xs with
      | (st', none) => applyDatasS st' ys
      | (st', some e) => (st', some e) := by
  induction xs generalizing st with
  | nil => rfl
  | cons j js ih =>
    simp only [List.cons_append, applyDatasS]
    rcases h : applyDataS st j with ⟨st', e⟩
    cases e with
    | none => simpa using ih st'
    | some e => rfl

theorem updateLast_concat (ms : List Message) (m : Message) (f : Message → Message) :
    updateLast (ms ++ [m]) f = some (ms ++ [f m]) := by
  simp [updateLast, List.getLast?_concat, List.dropLast_concat]

theorem applyDataS_reasoning (ms : List Message) (m : Message) (cv : List Conversation)
    (cid : Option Nat) (fr fg : String) (ic : Bool) (n : Nat) (t : String) :
    applyDataS ⟨ms ++ [m], cv, cid, fr, fg, ic, n⟩ (mkReasoning t) =
      (⟨ms ++ [{ m with reasoning := fg ++ t }], cv, cid, fr, fg ++ t, ic, n⟩, none) := by
  simp [applyDataS, mkReasoning, getField, lookupLastField, jsToString, updateLast_concat]

theorem applyDataS_answerStart (ms : List Message) (m : Message) (cv : List Conversation)
    (cid : Option Nat) (fr fg : String) (ic : Bool) (n : Nat) :
    applyDataS ⟨ms ++ [m], cv, cid, fr, fg, ic, n⟩ mkAnswerStart =
      (⟨ms ++ [{ m with isAnswering := true }], cv, cid, fr, fg, ic, n⟩, none) := by
  simp [applyDataS, mkAnswerStart, getField, lookupLastField, updateLast_concat]

theorem applyDataS_answer (ms : List Message) (m : Message) (cv : List Conversation)
    (cid : Option Nat) (fr fg : String) (ic : Bool) (n : Nat) (t : String) :
    applyDataS ⟨ms ++ [m], cv, cid, fr, fg, ic, n⟩ (mkAnswer t) =
      (⟨ms ++ [{ m with content := fr ++ t,
                        isStreaming := if fr ++ t = "" then m.isStreaming else false }],
        cv, cid, fr ++ t, fg, ic, n⟩, none) := by
  simp [applyDataS, mkAnswer, getField, lookupLastField, jsToString, updateLast_concat]

theorem reconcile_mkDone (cv : List Conversation) (cid : Option Nat) (snap : Json) :
    reconcile cv cid (mkDone snap) =
      cv.map fun c => if some c.id = cid then { c with messages := some snap } else c := by
  simp [reconcile, mkDone, getField, lookupLastField]

theorem applyDataS_done (st : LoopSt) (snap : Json) :
    applyDataS st (mkDone snap) =
      ({ st with isComplete := true,
                 conversations := st.conversations.map fun c =>
                   if some c.id = st.currentConversationId then
                     { c with messages := some snap } else c }, none) := by
  simp [applyDataS, mkDone, getField, lookupLastField, reconcile]

theorem applyDataS_error (st : LoopSt) (e : String) :
    applyDataS st (mkError e) = (st, some (.appError e)) := by
  simp [applyDataS, mkError, getField, lookupLastField, jsToString]

theorem applyDatasS_reasonings (rs : List String) (ms : List Message) (m : Message)
    (cv : List Conversation) (cid : Option Nat) (fr fg : String) (ic : Bool) (n : Nat)
    (hm : m.reasoning = fg) :
    applyDatasS ⟨ms ++ [m], cv, cid, fr, fg, ic, n⟩ (rs.map mkReasoning) =
      (⟨ms ++ [{ m with reasoning := fg ++ strJoin rs }], cv, cid, fr,
        fg ++ strJoin rs, ic, n⟩, none) := by
  induction rs generalizing m fg with
  | nil =>
    cases m
    simp_all [applyDatasS, strJoin]
  | cons r rs ih =>
    simp only [List.map_cons, applyDatasS, applyDataS_reasoning]
    have h2 := ih ({ m with reasoning := fg ++ r }) (fg ++ r) rfl
    simp only [h2]
    simp [strJoin, String.append_assoc]

theorem applyDatasS_answers (as : List String) (ms : List Message) (m : Message)
    (cv : List Conversation) (cid : Option Nat) (fr fg : String) (ic : Bool) (n : Nat)
    (hm : m.content = fr) :
    applyDatasS ⟨ms ++ [m], cv, cid, fr, fg, ic, n⟩ (as.map mkAnswer) =
      (⟨ms ++ [{ m with content := fr ++ strJoin as,
                        isStreaming := ansFlag m.isStreaming fr as }],
        cv, cid, fr ++ strJoin as, fg, ic, n⟩, none) := by
  induction as generalizing m fr with
  | nil =>
    cases m
    simp_all [applyDatasS, strJoin, ansFlag]
  | cons a as ih =>
    simp only [List.map_cons, applyDatasS, applyDataS_answer]
    have h2 := ih ({ m with content := fr ++ a,
                            isStreaming := if fr ++ a = "" then m.isStreaming else false })
      (fr ++ a) rfl
    simp only [h2]
    simp [strJoin, ansFlag, String.append_assoc]

theorem str_empty_append (s : String) : "" ++ s = s := rfl

theorem str_append_empty (s : String) : s ++ "" = s :=
  congrArg String.mk (List.append_nil s.data)

theorem applyDatasS_single (st : LoopSt) (j : Json) :
    applyDatasS st [j] =
      match applyDataS st j with
      | (st', none) => (st', none)
      | (st', some e) => (st', some e) := by
  rcases h : applyDataS st j with ⟨st', e⟩
  cases e <;> simp [applyDatasS, h]

/-- Full streaming run of a well-formed successful event sequence, starting
from a trailing message with empty accumulators. -/
theorem streamHappyRun (rs as : List String) (useStart : Bool) (snap : Json)
    (ms : List Message) (m : Message) (cv : List Conversation) (cid : Option Nat)
    (ic : Bool) (n : Nat) (hr : m.reasoning = "") (hc : m.content = "") :
    applyDatasS ⟨ms ++ [m], cv, cid, "", "", ic, n⟩ (happyFrames rs useStart as snap) =
      (⟨ms ++ [{ m with reasoning := strJoin rs, content := strJoin as,
                        isAnswering := (useStart || m.isAnswering),
                        isStreaming := ansFlag m.isStreaming "" as }],
        cv.map (fun c => if some c.id = cid then { c with messages := some snap } else c),
        cid, strJoin as, strJoin rs, true, n⟩, none) := by
  rw [happyFrames, applyDatasS_append]
  rw [applyDatasS_reasonings rs ms m cv cid "" "" ic n hr]
  simp only [str_empty_append]
  rw [applyDatasS_append]
  cases useStart with
  | true =>
    simp only [if_pos trivial, applyDatasS_single, applyDataS_answerStart]
    rw [applyDatasS_append]
    rw [applyDatasS_answers as ms _ cv cid "" (strJoin rs) ic n (by simpa using hc)]
    simp only [str_empty_append, applyDatasS_single, applyDataS_done]
    cases m
    simp_all
  | false =>
    have hif : (if (false : Bool) = true then [mkAnswerStart] else ([] : List Json)) = [] := rfl
    rw [hif]
    simp only [applyDatasS, List.nil_append]
    rw [applyDatasS_append]
    rw [applyDatasS_answers as ms _ cv cid "" (strJoin rs) ic n (by simpa using hc)]
    simp only [str_empty_append, applyDatasS_single, applyDataS_done]
    cases m
    simp_all

theorem applyDatasN_append (xs ys : List Json) (st : LoopSt) :
    applyDatasN st (xs ++ ys) =
      match applyDatasN st xs with
      | (st', none) => applyDatasN st' ys
      | (st', some e) => (st', some e) := by
  induction xs generalizing st with
  | nil => rfl
  | cons j js ih =>
    simp only [List.cons_append, applyDatasN]
    rcases h : applyDataN st j with ⟨st', e⟩
    cases e with
    | none => simpa using ih st'
    | some e => rfl

theorem applyDataN_reasoning (st : LoopSt) (t : String) :
    applyDataN st (mkReasoning t) =
      ({ st with fullReasoning := st.fullReasoning ++ t }, none) := by
  simp [applyDataN, mkReasoning, getField, lookupLastField, jsToString]

theorem applyDataN_answerStart (st : LoopSt) :
    applyDataN st mkAnswerStart = (st, none) := by
  simp [applyDataN, mkAnswerStart, getField, lookupLastField]

theorem applyDataN_answer (st : LoopSt) (t : String) :
    applyDataN st (mkAnswer t) =
      ({ st with fullResponse := st.fullResponse ++ t }, none) := by
  simp [applyDataN, mkAnswer, getField, lookupLastField, jsToString]

theorem applyDataN_done (st : LoopSt) (snap : Json) :
    applyDataN st (mkDone snap) =
      ({ st with isComplete := true,
                 messages := st.messages ++ [doneMessage st.fullResponse st.fullReasoning st.now],
                 conversations := st.conversations.map fun c =>
                   if some c.id = st.currentConversationId then
                     { c with messages := some snap } else c }, none) := by
  simp [applyDataN, mkDone, getField, lookupLastField, reconcile]

theorem applyDatasN_reasonings (rs : List String) (st : LoopSt) :
    applyDatasN st (rs.map mkReasoning) =
      ({ st with fullReasoning := st.fullReasoning ++ strJoin rs }, none) := by
  induction rs generalizing st with
  | nil =>
    cases st
    simp [applyDatasN, strJoin, str_append_empty]
  | cons r rs ih =>
    simp only [List.map_cons, applyDatasN, applyDataN_reasoning]
    rw [ih]
    simp [strJoin, String.append_assoc]

theorem applyDatasN_answers (as : List String) (st : LoopSt) :
    applyDatasN st (as.map mkAnswer) =
      ({ st with fullResponse := st.fullResponse ++ strJoin as }, none) := by
  induction as generalizing st with
  | nil =>
    cases st
    simp [applyDatasN, strJoin, str_append_empty]
  | cons a as ih =>
    simp only [List.map_cons, applyDatasN, applyDataN_answer]
    rw [ih]
    simp [strJoin, String.append_assoc]

theorem applyDatasN_single (st : LoopSt) (j : Json) :
    applyDatasN st [j] =
      match applyDataN st j with
      | (st', none) => (st', none)
      | (st', some e) => (st', some e) := by
  rcases h : applyDataN st j with ⟨st', e⟩
  cases e <;> simp [applyDatasN, h]

/-- Full non-streaming run of a well-formed successful event sequence,
starting from empty accumulators. -/
theorem nonStreamHappyRun (rs as : List String) (useStart : Bool) (snap : Json)
    (ms : List Message) (cv : List Conversation) (cid : Option Nat)
    (ic : Bool) (n : Nat) :
    applyDatasN ⟨ms, cv, cid, "", "", ic, n⟩ (happyFrames rs useStart as snap) =
      (⟨ms ++ [doneMessage (strJoin as) (strJoin rs) n],
        cv.map (fun c => if some c.id = cid then { c with messages := some snap } else c),
        cid, strJoin as, strJoin rs, true, n⟩, none) := by
  rw [happyFrames, applyDatasN_append, applyDatasN_reasonings]
  simp only [str_empty_append]
  rw [applyDatasN_append]
  cases useStart with
  | true =>
    simp only [if_pos trivial, applyDatasN_single, applyDataN_answerStart]
    rw [applyDatasN_append, applyDatasN_answers]
    simp only [str_empty_append, applyDatasN_single, applyDataN_done]
  | false =>
    have hif : (if (false : Bool) = true then [mkAnswerStart] else ([] : List Json)) = [] := rfl
    rw [hif]
    simp only [applyDatasN, List.nil_append]
    rw [applyDatasN_append, applyDatasN_answers]
    simp only [str_empty_append, applyDatasN_single, applyDataN_done]

/-! ## The claims -/

/-- Claim C3: for every event sequence of zero or more reasoning deltas, then
`answer_start`, then zero or more answer deltas, then `completed`, the
streaming reducer leaves the trailing message with `reasoning` the in-order
concatenation of the reasoning delta texts and `content` the in-order
concatenation of the answer delta texts, and its spec-level phase is
`complete`. -/
theorem claim_C3_happy_stream_concat (rs as : List String) (snap : Json)
    (ms : List Message) (cv : List Conversation) (cid : Option Nat) (ts n : Nat) :
    applyDatasS ⟨ms ++ [placeholderMessage ts], cv, cid, "", "", false, n⟩
        (happyFrames rs true as snap) =
      (⟨ms ++ [{ placeholderMessage ts with
                 reasoning := strJoin rs, content := strJoin as,
                 isAnswering := true, isStreaming := ansFlag true "" as }],
        cv.map (fun c => if some c.id = cid then { c with messages := some snap } else c),
        cid, strJoin as, strJoin rs, true, n⟩, none) ∧
    specPhase { placeholderMessage ts with
                reasoning := strJoin rs, content := strJoin as,
                isAnswering := true, isStreaming := ansFlag true "" as } none true
      = Phase.complete := by
  constructor
  · have h := streamHappyRun rs as true snap ms (placeholderMessage ts) cv cid false n rfl rfl
    simpa [placeholderMessage] using h
  · simp [specPhase, placeholderMessage]

/-- Claim C9: for every well-formed event sequence ending in `done`, the
streaming and non-streaming branches reach the same observable final state —
both append one assistant message with the same content and reasoning right
after the user message, and both reconcile the conversations list from the
`done` snapshot the same way. -/
theorem claim_C9_branch_equivalence (rs as : List String) (useStart : Bool) (snap : Json)
    (ms : List Message) (cv : List Conversation) (cid : Option Nat) (msg : String) (ts : Nat) :
    (applyDatasS ⟨(ms ++ [userMessage msg ts]) ++ [placeholderMessage ts], cv, cid,
        "", "", false, ts⟩ (happyFrames rs useStart as snap)).2 = none ∧
    applyDatasN ⟨ms ++ [userMessage msg ts], cv, cid, "", "", false, ts⟩
        (happyFrames rs useStart as snap) =
      (⟨(ms ++ [userMessage msg ts]) ++ [doneMessage (strJoin as) (strJoin rs) ts],
        cv.map (fun c => if some c.id = cid then { c with messages := some snap } else c),
        cid, strJoin as, strJoin rs, true, ts⟩, none) ∧
    (applyDatasS ⟨(ms ++ [userMessage msg ts]) ++ [placeholderMessage ts], cv, cid,
        "", "", false, ts⟩ (happyFrames rs useStart as snap)).1.messages.map obsMessage =
      (applyDatasN ⟨ms ++ [userMessage msg ts], cv, cid, "", "", false, ts⟩
        (happyFrames rs useStart as snap)).1.messages.map obsMessage ∧
    (applyDatasS ⟨(ms ++ [userMessage msg ts]) ++ [placeholderMessage ts], cv, cid,
        "", "", false, ts⟩ (happyFrames rs useStart as snap)).1.conversations =
      (applyDatasN ⟨ms ++ [userMessage msg ts], cv, cid, "", "", false, ts⟩
        (happyFrames rs useStart as snap)).1.conversations := by
  have hs := streamHappyRun rs as useStart snap (ms ++ [userMessage msg ts])
    (placeholderMessage ts) cv cid false ts rfl rfl
  have hn := nonStreamHappyRun rs as useStart snap (ms ++ [userMessage msg ts]) cv cid false ts
  refine ⟨by rw [hs], hn, ?_, by rw [hs, hn]⟩
  rw [hs, hn]
  simp [obsMessage, placeholderMessage, doneMessage]

/-- Claim C4: at any phase — after any successfully applied event prefix — a
`failed` event leaves the accumulated state untouched (the loop state at the
error is exactly the prior state), the partial message stays in the list with
the synthetic error message appended after it, and the spec-level phase of
the in-progress message is `errored`, never `complete`. -/
theorem claim_C4_failed_preserves_partial (pre : List Json) (e : String)
    (st L : LoopSt) (ts : Nat) (stC : ChatState)
    (h : applyDatasS st pre = (L, none)) :
    applyDatasS st (pre ++ [mkError e]) = (L, some (JsErr.appError e)) ∧
    (finalizeRun stC (L, some (JsErr.appError e)) ts).messages
      = L.messages ++ [errorMessage e ts] ∧
    (∀ (m : Message) (ic : Bool),
      specPhase m (some (JsErr.appError e)) ic = Phase.errored) := by
  refine ⟨?_, by simp [finalizeRun, errText], fun m ic => by simp [specPhase]⟩
  rw [applyDatasS_append, h]
  simp [applyDatasS_single, applyDataS_error]

/-- Witness for C4 at a concrete prefix: one reasoning delta, then the
service error `boom`. -/
theorem claim_C4_witness :
    applyDatasS demoInit ([mkReasoning "a"] ++ [mkError "boom"]) =
      (⟨[{ placeholderMessage 0 with reasoning := "a" }], [], some 1,
        "", "a", false, 0⟩, some (JsErr.appError "boom")) ∧
    (finalizeRun demoChat
        (⟨[{ placeholderMessage 0 with reasoning := "a" }], [], some 1,
          "", "a", false, 0⟩, some (JsErr.appError "boom")) 5).messages
      = [{ placeholderMessage 0 with reasoning := "a" }] ++ [errorMessage "boom" 5] ∧
    (∀ (m : Message) (ic : Bool),
      specPhase m (some (JsErr.appError "boom")) ic = Phase.errored) :=
  claim_C4_failed_preserves_partial [mkReasoning "a"] "boom" demoInit
    ⟨[{ placeholderMessage 0 with reasoning := "a" }], [], some 1, "", "a", false, 0⟩
    5 demoChat (by rfl)

/-- Counterexample to claim C5 as stated: after a `done` event (terminal
phase `complete`), a further answer delta still mutates the message — its
content changes from `""` to `"x"`. -/
theorem claim_C5_counterexample :
    (applyDatasS demoInit [mkDone Json.null]).1.messages.map Message.content = [""] ∧
    (applyDatasS demoInit [mkDone Json.null, mkAnswer "x"]).1.messages.map Message.content
      = ["x"] := by
  constructor <;> rfl

/-- Claim C5 as amended: once the stream has thrown (the `errored` terminal,
from a `failed` event or any other exception), the loop aborts, so no
subsequent event mutates anything — the state at the error point is final
whatever events follow.  After `done`, by contrast, the message is not
frozen: the code relies on the backend sending `done` last. -/
theorem claim_C5_errored_is_final (st st' : LoopSt) (frames rest : List Json) (e : JsErr)
    (h : applyDatasS st frames = (st', some e)) :
    applyDatasS st (frames ++ rest) = (st', some e) := by
  rw [applyDatasS_append, h]

/-- Witness for the amended C5: an `error` event followed by a late answer
delta, which is never applied. -/
theorem claim_C5_errored_is_final_witness :
    applyDatasS demoInit ([mkError "boom"] ++ [mkAnswer "late"]) =
      (demoInit, some (JsErr.appError "boom")) :=
  claim_C5_errored_is_final demoInit demoInit [mkError "boom"] [mkAnswer "late"]
    (JsErr.appError "boom") (by rfl)

/-- Claim C6: an answer delta without a preceding `answer_start` is still
accepted and appended to the content (no precondition on a prior marker);
in particular `answer:"Hi"` then `done` yields spec phase `complete` with
content `"Hi"`. -/
theorem claim_C6_implicit_answer (ms : List Message) (m : Message) (cv : List Conversation)
    (cid : Option Nat) (fr fg : String) (ic : Bool) (n : Nat) (t : String) (snap : Json) :
    applyDataS ⟨ms ++ [m], cv, cid, fr, fg, ic, n⟩ (mkAnswer t) =
      (⟨ms ++ [{ m with content := fr ++ t,
                        isStreaming := if fr ++ t = "" then m.isStreaming else false }],
        cv, cid, fr ++ t, fg, ic, n⟩, none) ∧
    applyDatasS ⟨[placeholderMessage n], cv, cid, "", "", false, n⟩
        [mkAnswer "Hi", mkDone snap] =
      (⟨[{ placeholderMessage n with content := "Hi", isStreaming := false }],
        cv.map (fun c => if some c.id = cid then { c with messages := some snap } else c),
        cid, "Hi", "", true, n⟩, none) ∧
    specPhase { placeholderMessage n with content := "Hi", isStreaming := false } none true
      = Phase.complete := by
  refine ⟨applyDataS_answer ms m cv cid fr fg ic n t, ?_, by simp [specPhase, placeholderMessage]⟩
  have h := streamHappyRun [] ["Hi"] false snap [] (placeholderMessage n) cv cid false n rfl rfl
  simpa [happyFrames, placeholderMessage, strJoin, ansFlag, str_append_empty] using h

/-- Claim C7: when the transport fails before any terminal event — here after
a single `reasoning:"x"` frame — the in-progress message keeps its
accumulated reasoning `"x"` with empty content, its spec-level phase is
`errored`, and a synthetic assistant-role error message is appended to the
conversation. -/
theorem claim_C7_transport_failure (st : ChatState) (ts : Nat) (m : String)
    (hg : sendGuard st = false) (hs : st.isStreamingEnabled = true) :
    sendMessage st ts [c7chunk] (.fail m) =
      { st with
        messages := st.messages ++
          [userMessage st.newMessage ts,
           { placeholderMessage ts with reasoning := "x" },
           errorMessage m ts],
        newMessage := "", isLoading := false } ∧
    specPhase { placeholderMessage ts with reasoning := "x" }
      (some (JsErr.transportError m)) false = Phase.errored := by
  have hsplit : jsSplitNN c7chunk =
      ["data: \x7b\"type\": \"reasoning\", \"content\": \"x\"\x7d", ""] := rfl
  have hline : ∀ st' : LoopSt,
      processLine applyDataS st' "data: \x7b\"type\": \"reasoning\", \"content\": \"x\"\x7d"
        = applyDataS st' (mkReasoning "x") := fun _ => rfl
  have hempty : ∀ st' : LoopSt, processLine applyDataS st' "" = (st', none) := fun _ => rfl
  constructor
  · have h1 : ¬ (sendGuard st = true) := by simp [hg]
    rw [sendMessage, if_neg h1, if_pos hs]
    have hstep := applyDataS_reasoning (st.messages ++ [userMessage st.newMessage ts])
      (placeholderMessage ts) st.conversations st.currentConversationId "" "" false ts "x"
    simp only [str_empty_append] at hstep
    simp only [runLoop, processChunks, processChunk, hsplit, processLines, initLoopSt,
      hline, hempty, hstep]
    simp [finalizeRun, errText, List.append_assoc]
  · rfl

/-- Witness for C7 at a concrete component state and failure text. -/
theorem claim_C7_witness :
    sendMessage demoChat 0 [c7chunk] (.fail "network down") =
      { demoChat with
        messages := demoChat.messages ++
          [userMessage demoChat.newMessage 0,
           { placeholderMessage 0 with reasoning := "x" },
           errorMessage "network down" 0],
        newMessage := "", isLoading := false } ∧
    specPhase { placeholderMessage 0 with reasoning := "x" }
      (some (JsErr.transportError "network down")) false = Phase.errored :=
  claim_C7_transport_failure demoChat 0 "network down" (by rfl) (by rfl)

/-- Claim C8: a line whose payload is structurally malformed (not decodable
by `JSON.parse`) is a failed condition that propagates: the loop aborts at
that line whatever follows, the state is returned as it was, and the caller
surfaces a synthetic error message — the frame is not silently dropped. -/
theorem claim_C8_malformed_payload_aborts (line : String) (rest : List String)
    (st : LoopSt) (stC : ChatState) (ts : Nat)
    (hpre : jsStartsWithData line = true)
    (hbad : parseJson (jsSlice6 line) = none) :
    processLines applyDataS st (line :: rest) = (st, some JsErr.parseError) ∧
    (finalizeRun stC (st, some JsErr.parseError) ts).messages
      = st.messages ++ [errorMessage parseErrorText ts] := by
  constructor
  · simp [processLines, processLine, hpre, hbad]
  · simp [finalizeRun, errText]

/-- Witness for C8: the truncated payload `{` aborts the stream even though a
valid frame follows. -/
theorem claim_C8_witness :
    processLines applyDataS demoInit
        ["data: \x7b", "data: \x7b\"type\": \"answer\", \"content\": \"Hi\"\x7d"]
      = (demoInit, some JsErr.parseError) ∧
    (finalizeRun demoChat (demoInit, some JsErr.parseError) 3).messages
      = demoInit.messages ++ [errorMessage parseErrorText 3] :=
  claim_C8_malformed_payload_aborts "data: \x7b"
    ["data: \x7b\"type\": \"answer\", \"content\": \"Hi\"\x7d"] demoInit demoChat 3
    (by rfl) (by rfl)

/-- Claim C10: with empty or whitespace-only input, or a request already in
flight, or no conversation selected, `sendMessage` returns immediately and
the whole component state — messages, conversations, pending input —
is unchanged. -/
theorem claim_C10_guard_noop (st : ChatState) (ts : Nat) (chunks : List String) (tl : TailEv)
    (h : jsTrim st.newMessage = "" ∨ st.isLoading = true ∨ st.currentConversationId = none) :
    sendMessage st ts chunks tl = st := by
  have hg : sendGuard st = true := by
    rcases h with h | h | h <;> simp [sendGuard, h, jsFalsyId]
  rw [sendMessage, if_pos hg]

/-- Witness for C10 with a whitespace-only pending input. -/
theorem claim_C10_witness :
    sendMessage ⟨[], [], some 1, "   ", false, true⟩ 0 [] TailEv.eof
      = ⟨[], [], some 1, "   ", false, true⟩ :=
  claim_C10_guard_noop ⟨[], [], some 1, "   ", false, true⟩ 0 [] TailEv.eof
    (Or.inl (by rfl))

/-- Claim C1 fails on the code: there is no generation token, so after a
conversation switch the still-running stream is not cancelled — a stale
reasoning delta overwrites the `reasoning` of the newly loaded conversation's
last message, and a stale `done` attaches its snapshot to the newly selected
conversation.  This theorem evaluates the code at that failing input. -/
theorem claim_C1_stale_stream_mutates :
    (applyDataS staleLoopSt (mkReasoning "x")).1.messages ≠ staleLoopSt.messages ∧
    (applyDataS staleLoopSt (mkDone (Json.arr []))).1.conversations.map
        (fun c => (c.id, c.messages.isSome))
      ≠ staleLoopSt.conversations.map (fun c => (c.id, c.messages.isSome)) := by
  constructor <;> decide

/-- Claim C2 fails on the code: the decoder splits each chunk on its own and
never buffers a partial fragment, so the frame sequence depends on the chunk
boundaries.  Splitting one well-formed frame mid-payload yields a different
(truncated) frame list, and the full pipeline turns the split input into a
parse failure instead of the answer `"Hi"`. -/
theorem claim_C2_boundary_dependent_decoding :
    wholeFrameChunk = splitFrontChunk ++ splitBackChunk ∧
    streamFrames [wholeFrameChunk] = ["\x7b\"type\": \"answer\", \"content\": \"Hi\"\x7d"] ∧
    streamFrames [splitFrontChunk, splitBackChunk] = ["\x7b\"type\": \"an"] ∧
    streamFrames [splitFrontChunk, splitBackChunk] ≠ streamFrames [wholeFrameChunk] ∧
    processChunks applyDataS demoInit [wholeFrameChunk] =
      ({ demoInit with
         messages := [{ placeholderMessage 0 with content := "Hi", isStreaming := false }],
         fullResponse := "Hi" }, none) ∧
    processChunks applyDataS demoInit [splitFrontChunk, splitBackChunk] =
      (demoInit, some JsErr.parseError) := by
  refine ⟨rfl, rfl, rfl, by decide, rfl, rfl⟩

end WebAI
